import Mathlib

/-!
Verification of the Bluetti BT device communication layer.

This file gives a shallow embedding of the device reader code
(custom_components/bluetti_bt/bluetti_bt_lib/bluetooth/device_reader.py),
the write-command path (custom_components/bluetti_bt/button.py) and the
entity update handlers (binary_sensor.py, button.py), together with
theorems about the embedded definitions.

The command codec (response_size, is_valid_response, is_exception_response,
parse_response) and the field decoder (bluetti_device.parse) live outside
the embedded sources; the reader code uses them only as black boxes, so the
embedding keeps them as opaque function fields and oracle parameters.
Cooperative-async control flow is embedded by explicit state passing: the
outcome of awaiting a notify future is an explicit parameter, since in the
single-threaded cooperative model the notification handler runs between
suspension points and the await sees exactly one resolution of the future.
-/

set_option maxHeartbeats 1000000

/-- Python runtime values as they appear in decoded field maps. Note that in
Python bool is a subclass of int, which matters for the isinstance check in
the pack polling loop. -/
inductive Value where
  | pyint (n : Int)
  | pybool (b : Bool)
  | pystr (s : String)
  | pynone
  deriving DecidableEq, Repr

/-- Exception classes raised or caught across the reader code: TimeoutError,
BleakError, ParseError, ModbusError, BadConnectionError, and a catch-all for
any other exception class. -/
inductive PyExc where
  | timeoutErr
  | bleakErr
  | parseError
  | modbusError
  | badConnection
  | otherExc
  deriving DecidableEq, Repr

/-- The state of an asyncio future: freshly created, resolved with a result,
resolved with an exception, or cancelled (asyncio.wait_for cancels the
awaited future when its timeout elapses). -/
inductive FutureState where
  | pending
  | resolvedOk (bs : List Nat)
  | resolvedErr (e : PyExc)
  | cancelled
  deriving DecidableEq, Repr

/-- The done() test of an asyncio future: every state except pending. -/
def futureDone : FutureState → Bool
  | .pending => false
  | _ => true

/-- A ReadHoldingRegisters command as the reader uses it: the codec methods
are opaque function fields because the command codec is an external
collaborator of the embedded code. -/
structure Command where
  starting_address : Nat
  response_size : Nat
  is_valid_response : List Nat → Bool
  is_exception_response : List Nat → Bool

/-- The mutable per-reader session state of DeviceReader. -/
structure ReaderState where
  persistent_conn : Bool
  max_retries : Nat
  has_notifier : Bool
  notify_future : Option FutureState
  current_command : Option Command
  notify_response : List Nat

/-- The bytes of the sentinel notification b"AT+NAME?\r". -/
def atNameSentinel : List Nat := [65, 84, 43, 78, 65, 77, 69, 63, 13]

/-- The bytes of the sentinel notification b"AT+ADV?\r". -/
def atAdvSentinel : List Nat := [65, 84, 43, 65, 68, 86, 63, 13]

/-- How one invocation of the notification handler ends: normally, with a
logged warning for an unexpected notification, or crashed (an
AttributeError on current_command None, which the source cannot rule out
by type). -/
inductive HandlerOut where
  | normal
  | warned
  | crashed
  deriving DecidableEq, Repr

/-- Embedding of DeviceReader notification intake, method
_notification_handler of device_reader.py. The handler discards data when
no future is installed or the installed future is done; treats the two AT+
sentinels as a bad connection; otherwise extends the accumulation buffer
and, when the buffer reaches the expected response size, resolves the
future with the bytes on a valid checksum or with ParseError on an invalid
one; a buffer matching the exception-response shape resolves with
ModbusError. -/
def notification_handler (s : ReaderState) (data : List Nat) : ReaderState × HandlerOut :=
  match s.notify_future with
  | none => (s, .warned)
  | some f =>
    if futureDone f then (s, .warned)
    else if data = atNameSentinel ∨ data = atAdvSentinel then
      ({ s with notify_future := some (.resolvedErr .badConnection) }, .normal)
    else
      match s.current_command with
      | none => ({ s with notify_response := s.notify_response ++ data }, .crashed)
      | some c =>
        let buf := s.notify_response ++ data
        if buf.length = c.response_size then
          if c.is_valid_response buf then
            ({ s with notify_response := buf, notify_future := some (.resolvedOk buf) }, .normal)
          else
            ({ s with notify_response := buf, notify_future := some (.resolvedErr .parseError) }, .normal)
        else if c.is_exception_response buf then
          ({ s with notify_response := buf, notify_future := some (.resolvedErr .modbusError) }, .normal)
        else
          ({ s with notify_response := buf }, .normal)

/-- Outcome of the write-and-await section of _async_send_command, seen from
the awaiting coroutine. The buf argument records the bytes the handler had
accumulated into notify_response when the exchange ended. resolvedBytes is
the future resolving with a complete valid response; timedOut is
asyncio.wait_for expiring (which cancels the future); modbusErr, badConn
and checksumFail are the future resolving with the corresponding
exception; bleakWriteErr is write_gatt_char raising before any await, with
the future left pending. -/
inductive AwaitOutcome where
  | resolvedBytes (bs : List Nat)
  | timedOut (buf : List Nat)
  | modbusErr (buf : List Nat)
  | badConn (buf : List Nat)
  | bleakWriteErr
  | checksumFail (buf : List Nat)

/-- Embedding of DeviceReader._async_send_command. The method installs a new
exchange unconditionally (current_command, a fresh pending future, an empty
buffer), writes the request, awaits the future, and catches TimeoutError,
ModbusError, BadConnectionError and BleakError by returning the empty bytes
object; a ParseError raised from the future propagates to the caller. -/
def async_send_command (s : ReaderState) (c : Command) (out : AwaitOutcome) :
    ReaderState × Except PyExc (List Nat) :=
  let s1 : ReaderState :=
    { s with current_command := some c, notify_future := some .pending, notify_response := [] }
  match out with
  | .resolvedBytes bs =>
      ({ s1 with notify_future := some (.resolvedOk bs), notify_response := bs }, .ok bs)
  | .timedOut buf =>
      ({ s1 with notify_future := some .cancelled, notify_response := buf }, .ok [])
  | .modbusErr buf =>
      ({ s1 with notify_future := some (.resolvedErr .modbusError), notify_response := buf }, .ok [])
  | .badConn buf =>
      ({ s1 with notify_future := some (.resolvedErr .badConnection), notify_response := buf }, .ok [])
  | .bleakWriteErr => (s1, .ok [])
  | .checksumFail buf =>
      ({ s1 with notify_future := some (.resolvedErr .parseError), notify_response := buf },
       .error .parseError)

/-- Python dict with string keys and insertion-ordered entries, as an
association list with unique keys kept in insertion order. -/
abbrev FieldMap := List (String × Value)

/-- One assignment d[k] = v on a Python dict: overwrite in place when the key
exists, append otherwise. -/
def dictSet (m : FieldMap) (k : String) (v : Value) : FieldMap :=
  if m.any (fun p => p.1 = k) then
    m.map (fun p => if p.1 = k then (k, v) else p)
  else m ++ [(k, v)]

/-- Python dict.update(l): assign every pair of l in order. -/
def dictUpdate (m : FieldMap) (l : FieldMap) : FieldMap :=
  l.foldl (fun acc p => dictSet acc p.1 p.2) m

/-- Python dict.get(k): the value of the first entry with key k. -/
def dictGet (m : FieldMap) (k : String) : Option Value :=
  (m.find? (fun p => p.1 = k)).map (fun p => p.2)

/-- The oracle for one command exchange inside read_data: the await outcome
of _async_send_command, plus the two external collaborators applied to that
exchange, parseResp for command.parse_response and devParse for
bluetti_device.parse at the command starting address. -/
structure CmdStep where
  awaitOut : AwaitOutcome
  parseResp : List Nat → Except PyExc (List Nat)
  devParse : List Nat → FieldMap

/-- The bytes value (or propagated exception) produced by
_async_send_command for a given await outcome; equals the second component
of async_send_command. -/
def sentBytes : AwaitOutcome → Except PyExc (List Nat)
  | .resolvedBytes bs => .ok bs
  | .checksumFail _ => .error .parseError
  | _ => .ok []

/-- The value or exception produced by one orchestrator line
command.parse_response(await send) followed by bluetti_device.parse, as a
function of the step oracle alone. -/
def cmdOutcome (st : CmdStep) : Except PyExc FieldMap :=
  match sentBytes st.awaitOut with
  | .error e => .error e
  | .ok bs =>
    match st.parseResp bs with
    | .error e => .error e
    | .ok body => .ok (st.devParse body)

/-- One command exchange inside read_data: send and await, then parse the
response bytes and decode the fields, threading the reader state. -/
def runCmd (s : ReaderState) (c : Command) (st : CmdStep) :
    ReaderState × Except PyExc FieldMap :=
  ((async_send_command s c st.awaitOut).1,
   match (async_send_command s c st.awaitOut).2 with
   | .error e => .error e
   | .ok bs =>
     match st.parseResp bs with
     | .error e => .error e
     | .ok body => .ok (st.devParse body))

/-- Observable events of a poll or write cycle, in program order: lock
acquisition and release, transport calls, log lines, sleeps, the combined
install-exchange-write-and-await step of _async_send_command (sendCmd), and
the coordinator refresh request of the write path. -/
inductive Ev where
  | acquireLock
  | releaseLock
  | connectCall (attempt : Nat)
  | logWarn
  | backoff (secs : Nat)
  | startNotify
  | stopNotify
  | disconnect
  | sendCmd
  | settle (secs : Nat)
  | writeChar
  | refresh
  deriving DecidableEq, Repr

/-- The connect-retry loop of read_data, lines 63-75 of device_reader.py:
for attempt in range(1, max_retries + 1), connect when not connected and
break on success; on an exception, re-raise when the attempt number is
max_retries or 1, otherwise log a warning, sleep 2 seconds and retry. The
fuel argument counts the attempts the range has left; cres gives for each
attempt number the exception its connect call raises, if any. Returns the
event trace and the re-raised exception, if any. -/
def connectLoop (isConn : Bool) (cres : Nat → Option PyExc) (maxRetries : Nat) (attempt : Nat) :
    Nat → List Ev × Option PyExc
  | 0 => ([], none)
  | fuel + 1 =>
    if isConn then ([], none)
    else
      match cres attempt with
      | none => ([.connectCall attempt], none)
      | some e =>
        if attempt = maxRetries ∨ attempt = 1 then ([.connectCall attempt], some e)
        else
          let rest := connectLoop isConn cres maxRetries (attempt + 1) fuel
          (.connectCall attempt :: .logWarn :: .backoff 2 :: rest.1, rest.2)

/-- The whole connect-retry sequence: the loop started at attempt 1 with
max_retries attempts available. -/
def connectRetry (isConn : Bool) (cres : Nat → Option PyExc) (maxRetries : Nat) :
    List Ev × Option PyExc :=
  connectLoop isConn cres maxRetries 1 maxRetries

/-- The result of one loop of read_data: the reader state, the next step
oracle index, the emitted events, and the accumulated field map or the
exception aborting the loop. -/
structure LoopRes where
  st : ReaderState
  idx : Nat
  tr : List Ev
  res : Except PyExc FieldMap

/-- The environment of one read_data call: the initial transport connection
flag, the connect call results by attempt number, whether the overall
polling timeout fires, and the oracle for each successive command
exchange. -/
structure Env where
  is_connected : Bool
  connect_result : Nat → Option PyExc
  timeout_fires : Bool
  step : Nat → CmdStep

/-- The main polling loop of read_data, lines 85-97 of device_reader.py: for
each command, send and parse; merge the decoded fields into the result map;
a ParseError is logged and the loop continues; any other exception
propagates and aborts the loop. -/
def mainLoop (env : Env) : List Command → ReaderState → Nat → FieldMap → LoopRes
  | [], s, _i, acc => ⟨s, _i, [], .ok acc⟩
  | c :: rest, s, i, acc =>
    match runCmd s c (env.step i) with
    | (s1, .ok parsed) =>
      let next := mainLoop env rest s1 (i + 1) (dictUpdate acc parsed)
      ⟨next.st, next.idx, .sendCmd :: next.tr, next.res⟩
    | (s1, .error .parseError) =>
      let next := mainLoop env rest s1 (i + 1) acc
      ⟨next.st, next.idx, .sendCmd :: .logWarn :: next.tr, next.res⟩
    | (s1, .error e) => ⟨s1, i + 1, [.sendCmd], .error e⟩

/-- Python isinstance(v, int): true for ints and for bools, because bool is
a subclass of int. -/
def isInstInt : Value → Bool
  | .pyint _ => true
  | .pybool _ => true
  | _ => false

/-- Python equality between a decoded value and the int pack index, with
True equal to 1 and False equal to 0. -/
def valueEqNat (v : Value) (n : Nat) : Bool :=
  match v with
  | .pyint m => m = (n : Int)
  | .pybool b => (if b then (1 : Int) else 0) = (n : Int)
  | _ => false

/-- The merge step of the pack polling loop, lines 124-137 of
device_reader.py: read the decoded pack_num; when it is absent, not an int,
or different from the requested pack, keep the result map unchanged;
otherwise assign every decoded field under its key suffixed with the pack
index. -/
def packCmdMerge (acc : FieldMap) (parsed : FieldMap) (pack : Nat) : FieldMap :=
  match dictGet parsed "pack_num" with
  | none => acc
  | some pn =>
    if isInstInt pn && valueEqNat pn pack then
      dictUpdate acc (parsed.map (fun p => (p.1 ++ toString pack, p.2)))
    else acc

/-- The inner pack-command loop of read_data, lines 113-140 of
device_reader.py: like the main loop, but merging through packCmdMerge; a
ParseError is logged and the loop continues; any other exception
propagates. -/
def packCmdLoop (env : Env) (pack : Nat) : List Command → ReaderState → Nat → FieldMap → LoopRes
  | [], s, _i, acc => ⟨s, _i, [], .ok acc⟩
  | c :: rest, s, i, acc =>
    match runCmd s c (env.step i) with
    | (s1, .ok parsed) =>
      let next := packCmdLoop env pack rest s1 (i + 1) (packCmdMerge acc parsed pack)
      ⟨next.st, next.idx, .sendCmd :: next.tr, next.res⟩
    | (s1, .error .parseError) =>
      let next := packCmdLoop env pack rest s1 (i + 1) acc
      ⟨next.st, next.idx, .sendCmd :: .logWarn :: next.tr, next.res⟩
    | (s1, .error e) => ⟨s1, i + 1, [.sendCmd], .error e⟩

/-- The polled Bluetti device as the reader sees it: its command lists, its
maximum pack count, and its setter-command builder. -/
structure BluettiDevice where
  polling_commands : List Command
  pack_polling_commands : List Command
  pack_num_max : Nat
  build_setter_command : String → Nat → Command

/-- The outer pack loop of read_data, lines 100-140 of device_reader.py: for
pack from 1 to pack_num_max, send the pack_num setter command (whose result
bytes are discarded but whose exceptions propagate uncaught), sleep 5
seconds, then run the pack commands. The first argument counts the packs
still to visit. -/
def packLoop (env : Env) (dev : BluettiDevice) : Nat → Nat → ReaderState → Nat → FieldMap → LoopRes
  | 0, _pack, s, i, acc => ⟨s, i, [], .ok acc⟩
  | n + 1, pack, s, i, acc =>
    match async_send_command s (dev.build_setter_command "pack_num" pack) (env.step i).awaitOut with
    | (s1, .error e) => ⟨s1, i + 1, [.sendCmd], .error e⟩
    | (s1, .ok _) =>
      match (packCmdLoop env pack dev.pack_polling_commands s1 (i + 1) acc).res with
      | .error e =>
        ⟨(packCmdLoop env pack dev.pack_polling_commands s1 (i + 1) acc).st,
         (packCmdLoop env pack dev.pack_polling_commands s1 (i + 1) acc).idx,
         .sendCmd :: .settle 5 :: (packCmdLoop env pack dev.pack_polling_commands s1 (i + 1) acc).tr,
         .error e⟩
      | .ok acc1 =>
        ⟨(packLoop env dev n (pack + 1)
            (packCmdLoop env pack dev.pack_polling_commands s1 (i + 1) acc).st
            (packCmdLoop env pack dev.pack_polling_commands s1 (i + 1) acc).idx acc1).st,
         (packLoop env dev n (pack + 1)
            (packCmdLoop env pack dev.pack_polling_commands s1 (i + 1) acc).st
            (packCmdLoop env pack dev.pack_polling_commands s1 (i + 1) acc).idx acc1).idx,
         .sendCmd :: .settle 5 ::
           ((packCmdLoop env pack dev.pack_polling_commands s1 (i + 1) acc).tr ++
            (packLoop env dev n (pack + 1)
              (packCmdLoop env pack dev.pack_polling_commands s1 (i + 1) acc).st
              (packCmdLoop env pack dev.pack_polling_commands s1 (i + 1) acc).idx acc1).tr),
         (packLoop env dev n (pack + 1)
            (packCmdLoop env pack dev.pack_polling_commands s1 (i + 1) acc).st
            (packCmdLoop env pack dev.pack_polling_commands s1 (i + 1) acc).idx acc1).res⟩

/-- The result of the try body of read_data: final reader state, event
trace, and field map or raised exception. -/
structure BodyRes where
  st : ReaderState
  tr : List Ev
  res : Except PyExc FieldMap

/-- The main command list read_data uses: the filter list when one was
supplied, the device polling commands otherwise. -/
def pollingOf (dev : BluettiDevice) (filter : Option (List Command)) : List Command :=
  match filter with
  | some f => f
  | none => dev.polling_commands

/-- The pack command list read_data uses: empty when a filter list was
supplied, the device pack polling commands otherwise. -/
def packsOf (dev : BluettiDevice) (filter : Option (List Command)) : List Command :=
  match filter with
  | some _ => []
  | none => dev.pack_polling_commands

/-- The state change of attaching the notifier once, lines 78-82 of
device_reader.py. -/
def attachNotifier (s : ReaderState) : ReaderState :=
  if s.has_notifier then s else { s with has_notifier := true }

/-- The events of attaching the notifier once. -/
def notifierTr (s : ReaderState) : List Ev :=
  if s.has_notifier then [] else [.startNotify]

/-- The try body of read_data, inside the polling lock and the overall
timeout envelope: choose the command lists (a filter list replaces the
polling commands and suppresses pack polling), run the connect-retry loop,
attach the notifier once, run the main polling loop, and run the pack loop
when pack commands are present. The overall timeout of the envelope is
embedded as the environment flag timeout_fires turning the body into a
raised TimeoutError. -/
def read_body (env : Env) (dev : BluettiDevice) (filter : Option (List Command))
    (s : ReaderState) : BodyRes :=
  if env.timeout_fires then ⟨s, [], .error .timeoutErr⟩
  else
    match (connectRetry env.is_connected env.connect_result s.max_retries).2 with
    | some e => ⟨s, (connectRetry env.is_connected env.connect_result s.max_retries).1, .error e⟩
    | none =>
      match (mainLoop env (pollingOf dev filter) (attachNotifier s) 0 []).res with
      | .error e =>
        ⟨(mainLoop env (pollingOf dev filter) (attachNotifier s) 0 []).st,
         (connectRetry env.is_connected env.connect_result s.max_retries).1 ++ notifierTr s ++
           (mainLoop env (pollingOf dev filter) (attachNotifier s) 0 []).tr,
         .error e⟩
      | .ok acc =>
        if (packsOf dev filter).length > 0 then
          ⟨(packLoop env dev dev.pack_num_max 1
              (mainLoop env (pollingOf dev filter) (attachNotifier s) 0 []).st
              (mainLoop env (pollingOf dev filter) (attachNotifier s) 0 []).idx acc).st,
           (connectRetry env.is_connected env.connect_result s.max_retries).1 ++ notifierTr s ++
             (mainLoop env (pollingOf dev filter) (attachNotifier s) 0 []).tr ++
             (packLoop env dev dev.pack_num_max 1
               (mainLoop env (pollingOf dev filter) (attachNotifier s) 0 []).st
               (mainLoop env (pollingOf dev filter) (attachNotifier s) 0 []).idx acc).tr,
           (packLoop env dev dev.pack_num_max 1
             (mainLoop env (pollingOf dev filter) (attachNotifier s) 0 []).st
             (mainLoop env (pollingOf dev filter) (attachNotifier s) 0 []).idx acc).res⟩
        else
          ⟨(mainLoop env (pollingOf dev filter) (attachNotifier s) 0 []).st,
           (connectRetry env.is_connected env.connect_result s.max_retries).1 ++ notifierTr s ++
             (mainLoop env (pollingOf dev filter) (attachNotifier s) 0 []).tr,
           .ok acc⟩

/-- The finally block of read_data, lines 148-154 of device_reader.py: when
the connection is not persistent, stop the notifier if attached and
disconnect; in persistent mode do nothing. -/
def teardown (s : ReaderState) : ReaderState × List Ev :=
  if s.persistent_conn then (s, [])
  else
    if s.has_notifier then
      ({ s with has_notifier := false }, [.stopNotify, .disconnect])
    else (s, [.disconnect])

/-- What a read_data call hands back to its caller: a field map, the None
signal, or a propagating exception. -/
inductive ReadResult where
  | map (m : FieldMap)
  | noneRes
  | raised (e : PyExc)
  deriving DecidableEq, Repr

/-- The overall result of read_data: final state, full event trace, and the
value handed to the caller. -/
structure ReadRes where
  st : ReaderState
  tr : List Ev
  out : ReadResult

/-- The except clauses of read_data, lines 142-147 of device_reader.py: a
completed body returns its map, TimeoutError and BleakError become the
None return, and every other exception propagates. -/
def read_out (r : Except PyExc FieldMap) : ReadResult :=
  match r with
  | .ok m => .map m
  | .error .timeoutErr => .noneRes
  | .error .bleakErr => .noneRes
  | .error e => .raised e

/-- Embedding of DeviceReader.read_data after its startup check (the device
argument is known to be present): run the body under the polling lock,
always run the finally teardown, and classify the body outcome through
read_out. -/
def read_data (env : Env) (dev : BluettiDevice) (filter : Option (List Command))
    (s : ReaderState) : ReadRes :=
  ⟨(teardown (read_body env dev filter s).st).1,
   Ev.acquireLock :: ((read_body env dev filter s).tr ++
     (teardown (read_body env dev filter s).st).2 ++ [Ev.releaseLock]),
   read_out (read_body env dev filter s).res⟩

/-- The environment of one write_to_device call on a button entity: the
persistent-connection flag of the coordinator, the transport connection
flag, the exceptions raised by the connect and the characteristic write,
and whether the 15 second timeout envelope fires. -/
structure WEnv where
  persistent_conn : Bool
  is_connected : Bool
  connect_raises : Option PyExc
  write_raises : Option PyExc
  timeout_fires : Bool

/-- What a write_to_device call hands back: normal completion, the None
return of a caught timeout or Bleak error, or a propagating exception. -/
inductive WriteResult where
  | okRes
  | noneRes
  | raised (e : PyExc)
  deriving DecidableEq, Repr

/-- The result of write_to_device: event trace and returned value. -/
structure WriteRes where
  tr : List Ev
  out : WriteResult

/-- The try body of write_to_device, lines 159-170 of button.py: under the
timeout envelope, connect when not connected, write the encoded command to
the write characteristic, and sleep 5 seconds so the device settles. -/
def write_body (e : WEnv) : List Ev × Except PyExc Unit :=
  if e.timeout_fires then ([], .error .timeoutErr)
  else if e.is_connected then
    match e.write_raises with
    | some ex => ([.writeChar], .error ex)
    | none => ([.writeChar, .settle 5], .ok ())
  else
    match e.connect_raises with
    | some ex => ([.connectCall 1], .error ex)
    | none =>
      match e.write_raises with
      | some ex => ([.connectCall 1, .writeChar], .error ex)
      | none => ([.connectCall 1, .writeChar, .settle 5], .ok ())

/-- The except clauses of write_to_device, lines 172-177 of button.py:
TimeoutError and BleakError become the None return, every other exception
propagates, and normal completion returns. -/
def write_out (r : Except PyExc Unit) : WriteResult :=
  match r with
  | .ok _ => .okRes
  | .error .timeoutErr => .noneRes
  | .error .bleakErr => .noneRes
  | .error ex => .raised ex

/-- The events after the finally block of write_to_device: the lock release
always happens, and the coordinator refresh request runs only on normal
completion (the except clauses return early, skipping it). -/
def write_tail (r : Except PyExc Unit) : List Ev :=
  match r with
  | .ok _ => [.releaseLock, .refresh]
  | .error _ => [.releaseLock]

/-- Embedding of BluettiButton.write_to_device, lines 153-183 of button.py:
acquire the polling lock, run the body, classify its outcome through
write_out, always run the finally disconnect when the connection is not
persistent, release the lock, and request a coordinator refresh only on
normal completion. -/
def write_to_device (e : WEnv) : WriteRes :=
  ⟨Ev.acquireLock :: ((write_body e).1 ++ (if e.persistent_conn then [] else [.disconnect]) ++
     write_tail (write_body e).2),
   write_out (write_body e).2⟩

/-- The coordinator data as an entity update handler sees it: a dict of
decoded fields, or any non-dict value. -/
inductive PyData where
  | dict (m : FieldMap)
  | nonDict
  deriving DecidableEq, Repr

/-- The entity attributes the update handlers mutate. -/
structure EntityState where
  available : Bool
  is_on : Bool
  deriving DecidableEq, Repr

/-- Embedding of BluettiBinarySensor._handle_coordinator_update, lines
98-129 of binary_sensor.py: return unchanged while the persistent
connection is down; mark unavailable when the coordinator data is not a
dict, when the response key is missing or maps to None, or when the value
is not a bool; otherwise mark available and set the on state to whether
the value is True. -/
def bs_handle_coordinator_update (persistent connected : Bool) (data : PyData)
    (key : String) (st : EntityState) : EntityState :=
  if persistent && !connected then st
  else
    match data with
    | .nonDict => { st with available := false }
    | .dict m =>
      match dictGet m key with
      | none => { st with available := false }
      | some .pynone => { st with available := false }
      | some (.pybool b) => { available := true, is_on := b }
      | some _ => { st with available := false }

/-- Embedding of BluettiButton._handle_coordinator_update, lines 115-146 of
button.py; its logic is the same as the binary sensor handler. -/
def btn_handle_coordinator_update (persistent connected : Bool) (data : PyData)
    (key : String) (st : EntityState) : EntityState :=
  if persistent && !connected then st
  else
    match data with
    | .nonDict => { st with available := false }
    | .dict m =>
      match dictGet m key with
      | none => { st with available := false }
      | some .pynone => { st with available := false }
      | some (.pybool b) => { available := true, is_on := b }
      | some _ => { st with available := false }

/-- The boolean stored at a response key, when the coordinator data is a
dict holding a bool there; the specification-side availability condition
of claim C10. -/
def boolAt (data : PyData) (key : String) : Option Bool :=
  match data with
  | .nonDict => none
  | .dict m =>
    match dictGet m key with
    | some (.pybool b) => some b
    | _ => none

/-- Right-biased override of optional lookups: the first argument when
present, the fallback otherwise. -/
def overrideOpt (a b : Option Value) : Option Value :=
  match a with
  | some v => some v
  | none => b

/-- The value the main polling loop leaves at key k after n further
commands starting at step index i, given the value cur it holds before
them: commands whose decode contains k overwrite it, failed commands and
commands without k leave it alone. -/
def pollLookup (env : Env) (k : String) : Nat → Nat → Option Value → Option Value
  | _i, 0, cur => cur
  | i, n + 1, cur =>
    match cmdOutcome (env.step i) with
    | .ok l => pollLookup env k (i + 1) n (overrideOpt (dictGet l k) cur)
    | .error _ => pollLookup env k (i + 1) n cur

/-- A trace without teardown events: no disconnect and no stop-notify. -/
def cleanTr (tr : List Ev) : Prop := Ev.disconnect ∉ tr ∧ Ev.stopNotify ∉ tr

/-- Claim C2 witness fixture: every connect attempt raises BleakError. -/
def c2cres : Nat → Option PyExc := fun _ => some .bleakErr

/-- Claim C3 witness fixture command: expected response size 3, checksum
valid exactly on the bytes 1, 2, 3. -/
def c3cmd : Command := ⟨100, 3, fun bs => bs == [1, 2, 3], fun _ => false⟩

/-- Claim C3 witness fixture state: a pending exchange for c3cmd with the
first fragment of two bytes already accumulated. -/
def c3state : ReaderState := ⟨false, 5, true, some .pending, some c3cmd, [1, 2]⟩

/-- Claim C1 counterexample fixture: the command of the outstanding
exchange. -/
def c1old : Command := ⟨10, 5, fun _ => true, fun _ => false⟩

/-- Claim C1 counterexample fixture: the second command sent while the
first exchange is outstanding. -/
def c1new : Command := ⟨20, 7, fun _ => true, fun _ => false⟩

/-- Claim C1 counterexample fixture: a reader state with an unresolved
pending exchange installed. -/
def c1state : ReaderState := ⟨false, 5, true, some .pending, some c1old, [1]⟩

/-- Claim C4 fixture command. -/
def c4cmd : Command := ⟨30, 4, fun _ => true, fun _ => false⟩

/-- Claim C4 fixture state. -/
def c4state : ReaderState := ⟨false, 5, true, none, none, []⟩

/-- Claim C4 witness fixture step: the exchange times out and parsing the
empty bytes object raises ParseError. -/
def c4step : CmdStep := ⟨.timedOut [], fun _ => .error .parseError, fun _ => []⟩

/-- Claim C4 witness fixture environment. -/
def c4env : Env := ⟨true, fun _ => none, false, fun _ => c4step⟩

/-- Claim C5 fixture: a step whose response fails the checksum, resolving
the exchange with ParseError. -/
def c5stepFail : CmdStep := ⟨.checksumFail [7], fun _ => .ok [], fun _ => []⟩

/-- Claim C5 fixture: a step that succeeds and decodes one field. -/
def c5stepOk : CmdStep := ⟨.resolvedBytes [1], fun bs => .ok bs, fun _ => [("a", .pyint 1)]⟩

/-- Claim C5 fixture environment: the first command fails its checksum, the
second succeeds. -/
def c5env : Env := ⟨true, fun _ => none, false, fun p => if p = 0 then c5stepFail else c5stepOk⟩

/-- Claim C5 fixture command. -/
def c5cmd : Command := ⟨0, 1, fun _ => true, fun _ => false⟩

/-- Claim C5 fixture state. -/
def c5state : ReaderState := ⟨false, 5, true, none, none, []⟩

/-- Claim C5 fixture decode table: every successful command decodes the
single field a. -/
def c5parsedOf : Nat → FieldMap := fun _ => [("a", Value.pyint 1)]

/-- Claim C6 fixture decode result: a pack-scoped command echoing
pack_num 2. -/
def c6parsed : FieldMap := [("voltage", .pyint 12), ("pack_num", .pyint 2)]

/-- Claim C6 fixture decode result with a mismatched pack_num echo. -/
def c6mismatch : FieldMap := [("voltage", .pyint 9), ("pack_num", .pyint 1)]

/-- Claim C6 fixture step: a pack command decoding c6parsed. -/
def c6step : CmdStep := ⟨.resolvedBytes [1], fun bs => .ok bs, fun _ => c6parsed⟩

/-- Claim C6 fixture environment. -/
def c6env : Env := ⟨true, fun _ => none, false, fun _ => c6step⟩

/-- Claim C6 fixture step: a pack command decoding the mismatched
response. -/
def c6stepM : CmdStep := ⟨.resolvedBytes [1], fun bs => .ok bs, fun _ => c6mismatch⟩

/-- Claim C6 fixture environment for the mismatch case. -/
def c6envM : Env := ⟨true, fun _ => none, false, fun _ => c6stepM⟩

/-- Claim C6 fixture command. -/
def c6cmd : Command := ⟨0, 1, fun _ => true, fun _ => false⟩

/-- Claim C6 fixture state. -/
def c6state : ReaderState := ⟨false, 5, true, none, none, []⟩

/-- Claim C7 fixture step: a successful command decoding one field. -/
def c7step : CmdStep := ⟨.resolvedBytes [2], fun bs => .ok bs, fun _ => [("soc", .pyint 55)]⟩

/-- Claim C7 fixture environment: connected, no timeout, every step
succeeds. -/
def c7env : Env := ⟨true, fun _ => none, false, fun _ => c7step⟩

/-- Claim C7 fixture device. -/
def c7dev : BluettiDevice := ⟨[], [], 0, fun _ _ => ⟨0, 1, fun _ => true, fun _ => false⟩⟩

/-- Claim C7 fixture command. -/
def c7cmd : Command := ⟨0, 1, fun _ => true, fun _ => false⟩

/-- Claim C7 fixture state. -/
def c7state : ReaderState := ⟨false, 5, false, none, none, []⟩

/-- Claim C8 fixture environment. -/
def env8 : Env := ⟨true, fun _ => none, false, fun _ => ⟨.resolvedBytes [], fun _ => .ok [], fun _ => []⟩⟩

/-- Claim C8 fixture device with no commands. -/
def dev8 : BluettiDevice := ⟨[], [], 0, fun _ _ => ⟨0, 1, fun _ => true, fun _ => false⟩⟩

/-- Claim C8 fixture state, not in persistent-connection mode. -/
def s8 : ReaderState := ⟨false, 5, true, none, none, []⟩

/-- Claim C8 fixture state in persistent-connection mode. -/
def s8p : ReaderState := ⟨true, 5, true, none, none, []⟩

/-- Claim C8 fixture write environment in persistent-connection mode. -/
def we8 : WEnv := ⟨true, true, none, none, false⟩

/-- Claim C9 witness fixture: a write cycle that connects, writes and
settles without errors, not in persistent-connection mode. -/
def we9 : WEnv := ⟨false, false, none, none, false⟩

/-- Claim C10 witness fixture coordinator data. -/
def c10data : PyData := .dict [("power_off", .pybool true)]

theorem dictGet_nil (k : String) : dictGet [] k = none := rfl

theorem dictGet_cons (k0 : String) (v0 : Value) (m : FieldMap) (k : String) :
    dictGet ((k0, v0) :: m) k = if k0 = k then some v0 else dictGet m k := by
  by_cases h : k0 = k
  · subst h
    simp [dictGet, List.find?_cons_of_pos]
  · simp [dictGet, List.find?_cons_of_neg, h]

theorem dictGet_eq_none_of_not_mem (m : FieldMap) (k : String)
    (h : k ∉ m.map Prod.fst) : dictGet m k = none := by
  induction m with
  | nil => rfl
  | cons p m ih =>
    obtain ⟨k0, v0⟩ := p
    simp only [List.map_cons, List.mem_cons] at h
    push_neg at h
    rw [dictGet_cons, if_neg (Ne.symm h.1)]
    exact ih h.2

theorem dictGet_of_mem_nodup (m : FieldMap) (k : String) (v : Value)
    (hkv : (k, v) ∈ m) (hnd : (m.map Prod.fst).Nodup) : dictGet m k = some v := by
  induction m with
  | nil => cases hkv
  | cons p m ih =>
    obtain ⟨k0, v0⟩ := p
    simp only [List.map_cons, List.nodup_cons] at hnd
    rcases List.mem_cons.mp hkv with h | h
    · obtain ⟨rfl, rfl⟩ := Prod.mk.injEq .. ▸ h
      rw [dictGet_cons, if_pos rfl]
    · have hne : k0 ≠ k := by
        intro he
        subst he
        exact hnd.1 (List.mem_map.mpr ⟨(k0, v), h, rfl⟩)
      rw [dictGet_cons, if_neg hne]
      exact ih h hnd.2

theorem dictGet_map_overwrite_ne (m : FieldMap) (k : String) (v : Value) (k1 : String)
    (hne : k ≠ k1) :
    dictGet (m.map (fun p => if p.1 = k then (k, v) else p)) k1 = dictGet m k1 := by
  induction m with
  | nil => rfl
  | cons p m ih =>
    obtain ⟨k0, v0⟩ := p
    by_cases h0 : k0 = k
    · subst h0
      simp [dictGet_cons, hne, ih]
    · simp [dictGet_cons, h0, ih]

theorem dictGet_map_overwrite_self (m : FieldMap) (k : String) (v : Value)
    (hany : m.any (fun p => p.1 = k) = true) :
    dictGet (m.map (fun p => if p.1 = k then (k, v) else p)) k = some v := by
  induction m with
  | nil => simp at hany
  | cons p m ih =>
    obtain ⟨k0, v0⟩ := p
    by_cases h0 : k0 = k
    · subst h0
      simp [dictGet_cons]
    · simp only [List.any_cons, Bool.or_eq_true, decide_eq_true_eq] at hany
      rcases hany with h | h
      · exact absurd h h0
      · simp [dictGet_cons, h0, ih h]

theorem dictGet_append (m1 m2 : FieldMap) (k : String) :
    dictGet (m1 ++ m2) k =
      match dictGet m1 k with
      | some v => some v
      | none => dictGet m2 k := by
  induction m1 with
  | nil => rfl
  | cons p m1 ih =>
    obtain ⟨k0, v0⟩ := p
    rw [List.cons_append, dictGet_cons, dictGet_cons]
    by_cases h : k0 = k
    · simp [h]
    · simp [h, ih]

theorem dictGet_of_not_any (m : FieldMap) (k : String)
    (h : m.any (fun p => p.1 = k) = false) : dictGet m k = none := by
  apply dictGet_eq_none_of_not_mem
  intro hmem
  obtain ⟨p, hp, hk⟩ := List.mem_map.mp hmem
  have : m.any (fun p => p.1 = k) = true := List.any_eq_true.mpr ⟨p, hp, by simp [hk]⟩
  simp [this] at h

theorem dictGet_dictSet (m : FieldMap) (k : String) (v : Value) (k1 : String) :
    dictGet (dictSet m k v) k1 = if k = k1 then some v else dictGet m k1 := by
  unfold dictSet
  by_cases hany : m.any (fun p => p.1 = k) = true
  · rw [if_pos hany]
    by_cases hk : k = k1
    · subst hk
      rw [if_pos rfl, dictGet_map_overwrite_self m k v hany]
    · rw [if_neg hk, dictGet_map_overwrite_ne m k v k1 hk]
  · rw [if_neg hany, dictGet_append]
    have hnone := dictGet_of_not_any m k (Bool.not_eq_true _ ▸ hany)
    by_cases hk : k = k1
    · subst hk
      rw [hnone]
      simp [dictGet_cons]
    · rw [if_neg hk]
      cases hg : dictGet m k1 with
      | none => simp [dictGet_cons, dictGet_nil, fun he => hk he]
      | some v1 => simp

theorem dictUpdate_nil (m : FieldMap) : dictUpdate m [] = m := rfl

theorem dictUpdate_cons (m : FieldMap) (p : String × Value) (l : FieldMap) :
    dictUpdate m (p :: l) = dictUpdate (dictSet m p.1 p.2) l := rfl

theorem dictGet_dictUpdate (m l : FieldMap) (k : String)
    (hnd : (l.map Prod.fst).Nodup) :
    dictGet (dictUpdate m l) k = overrideOpt (dictGet l k) (dictGet m k) := by
  induction l generalizing m with
  | nil => simp [dictUpdate_nil, dictGet_nil, overrideOpt]
  | cons p l ih =>
    obtain ⟨k0, v0⟩ := p
    simp only [List.map_cons, List.nodup_cons] at hnd
    rw [dictUpdate_cons, ih _ hnd.2, dictGet_cons]
    by_cases h : k0 = k
    · subst h
      have hl : dictGet l k0 = none := by
        apply dictGet_eq_none_of_not_mem
        exact hnd.1
      rw [hl, if_pos rfl]
      simp [overrideOpt, dictGet_dictSet]
    · rw [if_neg h]
      rw [dictGet_dictSet, if_neg h]

theorem async_send_command_snd (s : ReaderState) (c : Command) (o : AwaitOutcome) :
    (async_send_command s c o).2 = sentBytes o := by
  cases o <;> rfl

theorem runCmd_snd (s : ReaderState) (c : Command) (st : CmdStep) :
    (runCmd s c st).2 = cmdOutcome st := by
  show (match (async_send_command s c st.awaitOut).2 with
    | .error e => (.error e : Except PyExc FieldMap)
    | .ok bs =>
      match st.parseResp bs with
      | .error e => .error e
      | .ok body => .ok (st.devParse body)) = cmdOutcome st
  rw [async_send_command_snd]
  cases h : sentBytes st.awaitOut with
  | error e => simp [cmdOutcome, h]
  | ok bs =>
    cases h2 : st.parseResp bs with
    | error e => simp [cmdOutcome, h, h2]
    | ok body => simp [cmdOutcome, h, h2]

theorem runCmd_fst (s : ReaderState) (c : Command) (st : CmdStep) :
    (runCmd s c st).1 = (async_send_command s c st.awaitOut).1 := rfl

theorem mainLoop_nil (env : Env) (s : ReaderState) (i : Nat) (acc : FieldMap) :
    mainLoop env [] s i acc = ⟨s, i, [], .ok acc⟩ := rfl

theorem runCmd_eta (s : ReaderState) (c : Command) (st : CmdStep)
    (r : Except PyExc FieldMap) (h : cmdOutcome st = r) :
    runCmd s c st = ((runCmd s c st).1, r) := by
  rw [← h, ← runCmd_snd s c st]

theorem mainLoop_cons_ok_res (env : Env) (c : Command) (rest : List Command) (s : ReaderState)
    (i : Nat) (acc parsed : FieldMap) (h : cmdOutcome (env.step i) = .ok parsed) :
    (mainLoop env (c :: rest) s i acc).res =
      (mainLoop env rest (runCmd s c (env.step i)).1 (i + 1) (dictUpdate acc parsed)).res := by
  conv_lhs => rw [mainLoop, runCmd_eta s c (env.step i) _ h]

theorem mainLoop_cons_ok_tr (env : Env) (c : Command) (rest : List Command) (s : ReaderState)
    (i : Nat) (acc parsed : FieldMap) (h : cmdOutcome (env.step i) = .ok parsed) :
    (mainLoop env (c :: rest) s i acc).tr =
      .sendCmd :: (mainLoop env rest (runCmd s c (env.step i)).1 (i + 1) (dictUpdate acc parsed)).tr := by
  conv_lhs => rw [mainLoop, runCmd_eta s c (env.step i) _ h]

theorem mainLoop_cons_parse_res (env : Env) (c : Command) (rest : List Command) (s : ReaderState)
    (i : Nat) (acc : FieldMap) (h : cmdOutcome (env.step i) = .error .parseError) :
    (mainLoop env (c :: rest) s i acc).res =
      (mainLoop env rest (runCmd s c (env.step i)).1 (i + 1) acc).res := by
  conv_lhs => rw [mainLoop, runCmd_eta s c (env.step i) _ h]

theorem mainLoop_cons_parse_tr (env : Env) (c : Command) (rest : List Command) (s : ReaderState)
    (i : Nat) (acc : FieldMap) (h : cmdOutcome (env.step i) = .error .parseError) :
    (mainLoop env (c :: rest) s i acc).tr =
      .sendCmd :: .logWarn :: (mainLoop env rest (runCmd s c (env.step i)).1 (i + 1) acc).tr := by
  conv_lhs => rw [mainLoop, runCmd_eta s c (env.step i) _ h]

theorem mainLoop_cons_fatal_res (env : Env) (c : Command) (rest : List Command) (s : ReaderState)
    (i : Nat) (acc : FieldMap) (e : PyExc) (h : cmdOutcome (env.step i) = .error e)
    (hne : e ≠ .parseError) :
    (mainLoop env (c :: rest) s i acc).res = .error e := by
  conv_lhs => rw [mainLoop, runCmd_eta s c (env.step i) _ h]
  cases e
  case parseError => exact absurd rfl hne
  all_goals rfl

theorem mainLoop_cons_fatal_tr (env : Env) (c : Command) (rest : List Command) (s : ReaderState)
    (i : Nat) (acc : FieldMap) (e : PyExc) (h : cmdOutcome (env.step i) = .error e)
    (hne : e ≠ .parseError) :
    (mainLoop env (c :: rest) s i acc).tr = [.sendCmd] := by
  conv_lhs => rw [mainLoop, runCmd_eta s c (env.step i) _ h]
  cases e
  case parseError => exact absurd rfl hne
  all_goals rfl

theorem mainLoop_lookup (env : Env) (cmds : List Command) (s : ReaderState) (i : Nat)
    (acc : FieldMap)
    (hall : ∀ p, p < cmds.length →
      cmdOutcome (env.step (i + p)) = .error .parseError ∨
      ∃ l, cmdOutcome (env.step (i + p)) = .ok l ∧ (l.map Prod.fst).Nodup) :
    ∃ m, (mainLoop env cmds s i acc).res = .ok m ∧
      ∀ k, dictGet m k = pollLookup env k i cmds.length (dictGet acc k) := by
  induction cmds generalizing s i acc with
  | nil => exact ⟨acc, rfl, fun k => rfl⟩
  | cons c rest ih =>
    have h0 := hall 0 (by simp)
    rw [Nat.add_zero] at h0
    have hall2 : ∀ p, p < rest.length →
        cmdOutcome (env.step (i + 1 + p)) = .error .parseError ∨
        ∃ l, cmdOutcome (env.step (i + 1 + p)) = .ok l ∧ (l.map Prod.fst).Nodup := by
      intro p hp
      have := hall (p + 1) (by simp; omega)
      rw [show i + (p + 1) = i + 1 + p by omega] at this
      exact this
    rcases h0 with h0 | ⟨l, hl, hnd⟩
    · rw [mainLoop_cons_parse_res env c rest s i acc h0]
      obtain ⟨m, hm, hk⟩ := ih (runCmd s c (env.step i)).1 (i + 1) acc hall2
      refine ⟨m, hm, fun k => ?_⟩
      rw [hk k]
      simp [pollLookup, h0]
    · rw [mainLoop_cons_ok_res env c rest s i acc l hl]
      obtain ⟨m, hm, hk⟩ := ih (runCmd s c (env.step i)).1 (i + 1) (dictUpdate acc l) hall2
      refine ⟨m, hm, fun k => ?_⟩
      rw [hk k]
      simp only [pollLookup, hl]
      rw [dictGet_dictUpdate acc l k hnd]

theorem pollLookup_untouched (env : Env) (k : String) (n : Nat) :
    ∀ i cur, (∀ q, i ≤ q → q < i + n →
      cmdOutcome (env.step q) = .error .parseError ∨
      ∃ l, cmdOutcome (env.step q) = .ok l ∧ dictGet l k = none) →
    pollLookup env k i n cur = cur := by
  induction n with
  | zero => intro i cur _; rfl
  | succ n ih =>
    intro i cur h
    have h0 := h i le_rfl (by omega)
    rcases h0 with h0 | ⟨l, hl, hnone⟩
    · simp only [pollLookup, h0]
      exact ih (i + 1) cur (fun q hq1 hq2 => h q (by omega) (by omega))
    · simp only [pollLookup, hl, hnone, overrideOpt]
      exact ih (i + 1) cur (fun q hq1 hq2 => h q (by omega) (by omega))

theorem pollLookup_set (env : Env) (k : String) (v : Value) (n : Nat) :
    ∀ i p cur, i ≤ p → p < i + n →
    (∃ l, cmdOutcome (env.step p) = .ok l ∧ dictGet l k = some v) →
    (∀ q, i ≤ q → q < i + n → q ≠ p →
      cmdOutcome (env.step q) = .error .parseError ∨
      ∃ l, cmdOutcome (env.step q) = .ok l ∧ dictGet l k = none) →
    pollLookup env k i n cur = some v := by
  induction n with
  | zero => intro i p cur h1 h2 _ _; omega
  | succ n ih =>
    intro i p cur hip hpn hset hrest
    by_cases hpi : p = i
    · subst hpi
      obtain ⟨l, hl, hv⟩ := hset
      simp only [pollLookup, hl, hv, overrideOpt]
      apply pollLookup_untouched env k n (p + 1)
      intro q hq1 hq2
      rcases hrest q (by omega) (by omega) (by omega) with h | h
      · exact Or.inl h
      · exact Or.inr h
    · have h0 := hrest i le_rfl (by omega) (fun he => hpi he.symm)
      rcases h0 with h0 | ⟨l, hl, hnone⟩
      · simp only [pollLookup, h0]
        exact ih (i + 1) p cur (by omega) (by omega) hset
          (fun q hq1 hq2 hqp => hrest q (by omega) (by omega) hqp)
      · simp only [pollLookup, hl, hnone, overrideOpt]
        exact ih (i + 1) p cur (by omega) (by omega) hset
          (fun q hq1 hq2 hqp => hrest q (by omega) (by omega) hqp)

theorem cleanTr_nil : cleanTr [] := by
  constructor <;> intro hm <;> cases hm

theorem cleanTr_cons (e : Ev) (tr : List Ev) (h1 : e ≠ .disconnect) (h2 : e ≠ .stopNotify)
    (h : cleanTr tr) : cleanTr (e :: tr) := by
  constructor
  · intro hm
    rcases List.mem_cons.mp hm with hm | hm
    · exact h1 hm.symm
    · exact h.1 hm
  · intro hm
    rcases List.mem_cons.mp hm with hm | hm
    · exact h2 hm.symm
    · exact h.2 hm

theorem cleanTr_append (t1 t2 : List Ev) (h1 : cleanTr t1) (h2 : cleanTr t2) :
    cleanTr (t1 ++ t2) := by
  constructor
  · intro hm
    rcases List.mem_append.mp hm with hm | hm
    · exact h1.1 hm
    · exact h2.1 hm
  · intro hm
    rcases List.mem_append.mp hm with hm | hm
    · exact h1.2 hm
    · exact h2.2 hm

theorem async_eta (s : ReaderState) (c : Command) (o : AwaitOutcome)
    (r : Except PyExc (List Nat)) (h : sentBytes o = r) :
    async_send_command s c o = ((async_send_command s c o).1, r) := by
  rw [← h, ← async_send_command_snd]

theorem mainLoop_clean (env : Env) (cmds : List Command) (s : ReaderState) (i : Nat)
    (acc : FieldMap) : cleanTr (mainLoop env cmds s i acc).tr := by
  induction cmds generalizing s i acc with
  | nil => exact cleanTr_nil
  | cons c rest ih =>
    rw [mainLoop]
    split
    · next s1 parsed _ =>
      exact cleanTr_cons _ _ (by decide) (by decide) (ih s1 (i + 1) (dictUpdate acc parsed))
    · next s1 _ =>
      exact cleanTr_cons _ _ (by decide) (by decide)
        (cleanTr_cons _ _ (by decide) (by decide) (ih s1 (i + 1) acc))
    · next s1 e _ _ =>
      exact cleanTr_cons _ _ (by decide) (by decide) cleanTr_nil

theorem packCmdLoop_clean (env : Env) (pack : Nat) (cmds : List Command) (s : ReaderState)
    (i : Nat) (acc : FieldMap) : cleanTr (packCmdLoop env pack cmds s i acc).tr := by
  induction cmds generalizing s i acc with
  | nil => exact cleanTr_nil
  | cons c rest ih =>
    rw [packCmdLoop]
    split
    · next s1 parsed _ =>
      exact cleanTr_cons _ _ (by decide) (by decide) (ih s1 (i + 1) (packCmdMerge acc parsed pack))
    · next s1 _ =>
      exact cleanTr_cons _ _ (by decide) (by decide)
        (cleanTr_cons _ _ (by decide) (by decide) (ih s1 (i + 1) acc))
    · next s1 e _ _ =>
      exact cleanTr_cons _ _ (by decide) (by decide) cleanTr_nil

theorem packLoop_clean (env : Env) (dev : BluettiDevice) (n : Nat) :
    ∀ pack s i acc, cleanTr (packLoop env dev n pack s i acc).tr := by
  induction n with
  | zero => intro pack s i acc; exact cleanTr_nil
  | succ n ih =>
    intro pack s i acc
    rw [packLoop]
    split
    · next s1 e _ =>
      exact cleanTr_cons _ _ (fun h => Ev.noConfusion h) (fun h => Ev.noConfusion h) cleanTr_nil
    · next s1 bs _ =>
      split
      · next e _ =>
        exact cleanTr_cons _ _ (fun h => Ev.noConfusion h) (fun h => Ev.noConfusion h)
          (cleanTr_cons _ _ (fun h => Ev.noConfusion h) (fun h => Ev.noConfusion h)
            (packCmdLoop_clean env pack dev.pack_polling_commands s1 (i + 1) acc))
      · next acc1 _ =>
        exact cleanTr_cons _ _ (fun h => Ev.noConfusion h) (fun h => Ev.noConfusion h)
          (cleanTr_cons _ _ (fun h => Ev.noConfusion h) (fun h => Ev.noConfusion h)
            (cleanTr_append _ _
              (packCmdLoop_clean env pack dev.pack_polling_commands s1 (i + 1) acc)
              (ih (pack + 1) _ _ acc1)))

theorem connectLoop_clean (isConn : Bool) (cres : Nat → Option PyExc) (maxR : Nat) :
    ∀ fuel attempt, cleanTr (connectLoop isConn cres maxR attempt fuel).1 := by
  intro fuel
  induction fuel with
  | zero => intro attempt; exact cleanTr_nil
  | succ fuel ih =>
    intro attempt
    rw [connectLoop]
    split
    · exact cleanTr_nil
    · split
      · exact cleanTr_cons _ _ (fun h => Ev.noConfusion h) (fun h => Ev.noConfusion h) cleanTr_nil
      · split
        · exact cleanTr_cons _ _ (fun h => Ev.noConfusion h) (fun h => Ev.noConfusion h)
            cleanTr_nil
        · exact cleanTr_cons _ _ (fun h => Ev.noConfusion h) (fun h => Ev.noConfusion h)
            (cleanTr_cons _ _ (fun h => Ev.noConfusion h) (fun h => Ev.noConfusion h)
              (cleanTr_cons _ _ (fun h => Ev.noConfusion h) (fun h => Ev.noConfusion h)
                (ih (attempt + 1))))

theorem connectRetry_clean (isConn : Bool) (cres : Nat → Option PyExc) (maxR : Nat) :
    cleanTr (connectRetry isConn cres maxR).1 :=
  connectLoop_clean isConn cres maxR maxR 1

theorem notifierTr_clean (s : ReaderState) : cleanTr (notifierTr s) := by
  unfold notifierTr
  split
  · exact cleanTr_nil
  · exact cleanTr_cons _ _ (fun h => Ev.noConfusion h) (fun h => Ev.noConfusion h) cleanTr_nil

theorem read_body_clean (env : Env) (dev : BluettiDevice) (filter : Option (List Command))
    (s : ReaderState) : cleanTr (read_body env dev filter s).tr := by
  rw [read_body]
  split
  · exact cleanTr_nil
  · split
    · exact connectRetry_clean env.is_connected env.connect_result s.max_retries
    · split
      · exact cleanTr_append _ _
          (cleanTr_append _ _
            (connectRetry_clean env.is_connected env.connect_result s.max_retries)
            (notifierTr_clean s))
          (mainLoop_clean env _ _ 0 [])
      · split
        · exact cleanTr_append _ _
            (cleanTr_append _ _
              (cleanTr_append _ _
                (connectRetry_clean env.is_connected env.connect_result s.max_retries)
                (notifierTr_clean s))
              (mainLoop_clean env _ _ 0 []))
            (packLoop_clean env dev dev.pack_num_max 1 _ _ _)
        · exact cleanTr_append _ _
            (cleanTr_append _ _
              (connectRetry_clean env.is_connected env.connect_result s.max_retries)
              (notifierTr_clean s))
            (mainLoop_clean env _ _ 0 [])

theorem async_send_pc (s : ReaderState) (c : Command) (o : AwaitOutcome) :
    (async_send_command s c o).1.persistent_conn = s.persistent_conn := by
  cases o <;> rfl

theorem runCmd_pc (s : ReaderState) (c : Command) (st : CmdStep) :
    (runCmd s c st).1.persistent_conn = s.persistent_conn := by
  rw [runCmd_fst, async_send_pc]

theorem mainLoop_pc (env : Env) (cmds : List Command) :
    ∀ s i acc, (mainLoop env cmds s i acc).st.persistent_conn = s.persistent_conn := by
  induction cmds with
  | nil => intro s i acc; rfl
  | cons c rest ih =>
    intro s i acc
    rw [mainLoop]
    split
    · next s1 parsed heq =>
      have h1 : s1.persistent_conn = s.persistent_conn := by
        have h2 := runCmd_pc s c (env.step i)
        rw [heq] at h2
        exact h2
      exact (ih s1 (i + 1) (dictUpdate acc parsed)).trans h1
    · next s1 heq =>
      have h1 : s1.persistent_conn = s.persistent_conn := by
        have h2 := runCmd_pc s c (env.step i)
        rw [heq] at h2
        exact h2
      exact (ih s1 (i + 1) acc).trans h1
    · next s1 e hne heq =>
      have h2 := runCmd_pc s c (env.step i)
      rw [heq] at h2
      exact h2

theorem packCmdLoop_pc (env : Env) (pack : Nat) (cmds : List Command) :
    ∀ s i acc, (packCmdLoop env pack cmds s i acc).st.persistent_conn = s.persistent_conn := by
  induction cmds with
  | nil => intro s i acc; rfl
  | cons c rest ih =>
    intro s i acc
    rw [packCmdLoop]
    split
    · next s1 parsed heq =>
      have h1 : s1.persistent_conn = s.persistent_conn := by
        have h2 := runCmd_pc s c (env.step i)
        rw [heq] at h2
        exact h2
      exact (ih s1 (i + 1) (packCmdMerge acc parsed pack)).trans h1
    · next s1 heq =>
      have h1 : s1.persistent_conn = s.persistent_conn := by
        have h2 := runCmd_pc s c (env.step i)
        rw [heq] at h2
        exact h2
      exact (ih s1 (i + 1) acc).trans h1
    · next s1 e hne heq =>
      have h2 := runCmd_pc s c (env.step i)
      rw [heq] at h2
      exact h2

theorem packLoop_pc (env : Env) (dev : BluettiDevice) (n : Nat) :
    ∀ pack s i acc, (packLoop env dev n pack s i acc).st.persistent_conn = s.persistent_conn := by
  induction n with
  | zero => intro pack s i acc; rfl
  | succ n ih =>
    intro pack s i acc
    rw [packLoop]
    split
    · next s1 e heq =>
      have h2 := async_send_pc s (dev.build_setter_command "pack_num" pack) (env.step i).awaitOut
      rw [heq] at h2
      exact h2
    · next s1 bs heq =>
      have h1 : s1.persistent_conn = s.persistent_conn := by
        have h2 := async_send_pc s (dev.build_setter_command "pack_num" pack) (env.step i).awaitOut
        rw [heq] at h2
        exact h2
      split
      · next e _ =>
        exact (packCmdLoop_pc env pack dev.pack_polling_commands s1 (i + 1) acc).trans h1
      · next acc1 _ =>
        exact ((ih (pack + 1) _ _ acc1).trans
          (packCmdLoop_pc env pack dev.pack_polling_commands s1 (i + 1) acc)).trans h1

theorem attachNotifier_pc (s : ReaderState) :
    (attachNotifier s).persistent_conn = s.persistent_conn := by
  unfold attachNotifier
  split <;> rfl

theorem read_body_pc (env : Env) (dev : BluettiDevice) (filter : Option (List Command))
    (s : ReaderState) : (read_body env dev filter s).st.persistent_conn = s.persistent_conn := by
  rw [read_body]
  split
  · rfl
  · split
    · rfl
    · split
      · exact (mainLoop_pc env (pollingOf dev filter) (attachNotifier s) 0 []).trans
          (attachNotifier_pc s)
      · split
        · exact ((packLoop_pc env dev dev.pack_num_max 1 _ _ _).trans
            (mainLoop_pc env (pollingOf dev filter) (attachNotifier s) 0 [])).trans
            (attachNotifier_pc s)
        · exact (mainLoop_pc env (pollingOf dev filter) (attachNotifier s) 0 []).trans
            (attachNotifier_pc s)

theorem teardown_count_disconnect (s : ReaderState) :
    (teardown s).2.count Ev.disconnect = if s.persistent_conn then 0 else 1 := by
  cases hp : s.persistent_conn with
  | true => simp [teardown, hp]
  | false => cases hn : s.has_notifier <;> simp [teardown, hp, hn]

theorem teardown_count_stop (s : ReaderState) (hp : s.persistent_conn = true) :
    (teardown s).2.count Ev.stopNotify = 0 := by
  simp [teardown, hp]

theorem teardown_notifier (s : ReaderState) (hp : s.persistent_conn = false) :
    (teardown s).1.has_notifier = false := by
  cases hn : s.has_notifier <;> simp [teardown, hp, hn]

theorem count_eq_zero_of_clean_disconnect (tr : List Ev) (h : cleanTr tr) :
    tr.count Ev.disconnect = 0 :=
  List.count_eq_zero.mpr h.1

theorem count_eq_zero_of_clean_stop (tr : List Ev) (h : cleanTr tr) :
    tr.count Ev.stopNotify = 0 :=
  List.count_eq_zero.mpr h.2

theorem toDigitsCore_len (b : Nat) :
    ∀ (fuel n : Nat) (ds : List Char), ds.length ≤ (Nat.toDigitsCore b fuel n ds).length := by
  intro fuel
  induction fuel with
  | zero => intro n ds; exact Nat.le_refl _
  | succ fuel ih =>
    intro n ds
    simp only [Nat.toDigitsCore]
    split
    · simp
    · exact le_trans (Nat.le_succ _) (ih (n / b) (Nat.digitChar (n % b) :: ds))

theorem toDigits_len_pos (b n : Nat) : 0 < (Nat.toDigits b n).length := by
  show 0 < (Nat.toDigitsCore b (n + 1) n []).length
  simp only [Nat.toDigitsCore]
  split
  · simp
  · exact lt_of_lt_of_le (by simp) (toDigitsCore_len b n (n / b) [Nat.digitChar (n % b)])

theorem natToString_ne_empty (n : Nat) : toString n ≠ "" := by
  intro he
  have hd : Nat.toDigits 10 n = [] := congrArg String.data he
  have hp := toDigits_len_pos 10 n
  rw [hd] at hp
  simp at hp

theorem string_length_zero (s : String) (h : s.length = 0) : s = "" := by
  obtain ⟨data⟩ := s
  cases data with
  | nil => rfl
  | cons c cs => simp [String.length] at h

theorem key_append_pack_ne (k : String) (pack : Nat) : k ++ toString pack ≠ k := by
  intro h
  have hl := congrArg String.length h
  rw [String.length_append] at hl
  have h0 : (toString pack).length = 0 := by omega
  exact natToString_ne_empty pack (string_length_zero _ h0)

theorem packCmdLoop_cons_ok_res (env : Env) (pack : Nat) (c : Command) (rest : List Command)
    (s : ReaderState) (i : Nat) (acc parsed : FieldMap)
    (h : cmdOutcome (env.step i) = .ok parsed) :
    (packCmdLoop env pack (c :: rest) s i acc).res =
      (packCmdLoop env pack rest (runCmd s c (env.step i)).1 (i + 1)
        (packCmdMerge acc parsed pack)).res := by
  conv_lhs => rw [packCmdLoop, runCmd_eta s c (env.step i) _ h]

/-- Claim C1 counterexample: with a pending exchange outstanding
(c1state.notify_future is an unresolved pending future), a further
_async_send_command call is not rejected: it returns successfully with the
new response bytes and the outstanding exchange is silently replaced by a
fresh one for the new command. The embedding has no rejection path at all,
mirroring the source, which contains no pending-exchange check. -/
theorem claim_C1_counterexample :
    c1state.notify_future = some .pending ∧
    (async_send_command c1state c1new (.resolvedBytes [9])).2 = .ok [9] ∧
    (async_send_command c1state c1new (.resolvedBytes [9])).1.notify_future =
      some (.resolvedOk [9]) ∧
    (async_send_command c1state c1new (.resolvedBytes [9])).1.current_command = some c1new :=
  ⟨rfl, rfl, rfl, rfl⟩

/-- Claim C1 amended: _async_send_command performs no pending-exchange
check: for every prior state, even one holding an unresolved exchange, the
call behaves exactly as it would from a cleared state, unconditionally
installing a fresh exchange for the new command (overwriting
current_command, notify_future and the accumulation buffer); no
InvalidState error exists in the code. -/
theorem claim_C1_amended (s : ReaderState) (c : Command) (out : AwaitOutcome) :
    async_send_command s c out =
      async_send_command
        { s with notify_future := none, current_command := none, notify_response := [] } c out ∧
    (async_send_command s c out).1.current_command = some c := by
  cases out <;> exact ⟨rfl, rfl⟩

/-- Claim C4 counterexample: on a per-command timeout,
_async_send_command does not return a timeout error; it returns the empty
bytes object as an ordinary success value, and the notify_future field is
not cleared to None (the cancelled future stays installed). -/
theorem claim_C4_counterexample :
    (async_send_command c4state c4cmd (.timedOut [])).2 = .ok [] ∧
    (async_send_command c4state c4cmd (.timedOut [])).2 ≠ .error .timeoutErr ∧
    (async_send_command c4state c4cmd (.timedOut [])).1.notify_future ≠ none :=
  ⟨rfl, fun h => Except.noConfusion h, fun h => Option.noConfusion h⟩

/-- Claim C4 amended: when the per-command timeout elapses,
_async_send_command swallows the TimeoutError and returns the empty bytes
sentinel (not a distinguished timeout error); the notify_future field
keeps the cancelled future (so later notifications are discarded) rather
than being reset to None; and the failure is not fatal to the poll: the
orchestrator loop parses the empty bytes, the resulting ParseError is
caught, and polling continues with the remaining commands. -/
theorem claim_C4_amended (s : ReaderState) (c : Command) (buf : List Nat)
    (env : Env) (rest : List Command) (i : Nat) (acc : FieldMap)
    (hstep : (env.step i).awaitOut = .timedOut buf)
    (hparse : (env.step i).parseResp [] = .error .parseError) :
    (async_send_command s c (.timedOut buf)).2 = .ok [] ∧
    (async_send_command s c (.timedOut buf)).1.notify_future = some .cancelled ∧
    (mainLoop env (c :: rest) s i acc).res =
      (mainLoop env rest (runCmd s c (env.step i)).1 (i + 1) acc).res := by
  refine ⟨rfl, rfl, ?_⟩
  apply mainLoop_cons_parse_res
  unfold cmdOutcome
  rw [hstep]
  simp only [sentBytes]
  rw [hparse]

/-- Claim C4 witness: the amended claim instantiated at the fixture
environment whose step times out and whose parse of empty bytes raises
ParseError. -/
theorem claim_C4_witness :
    (async_send_command c4state c4cmd (.timedOut [])).1.notify_future = some .cancelled ∧
    (mainLoop c4env [c4cmd] c4state 0 []).res = .ok [] := by
  have h := claim_C4_amended c4state c4cmd [] c4env [] 0 [] rfl rfl
  exact ⟨h.2.1, h.2.2.trans rfl⟩

/-- Claim C3: for every pending command, once the notification intake has
accumulated (possibly across several fragments) exactly the expected
response length and the checksum validates, the handler resolves the
exchange with exactly those bytes (the future leaves the pending state, so
it cannot be resolved again); a complete buffer failing the checksum
resolves the exchange with ParseError instead; and any notification
arriving once the future is done is discarded with a warning, leaving the
state unchanged. -/
theorem claim_C3 (s : ReaderState) (c : Command) (d : List Nat)
    (hf : s.notify_future = some .pending)
    (hc : s.current_command = some c)
    (hd1 : d ≠ atNameSentinel) (hd2 : d ≠ atAdvSentinel)
    (hlen : (s.notify_response ++ d).length = c.response_size) :
    (c.is_valid_response (s.notify_response ++ d) = true →
      notification_handler s d =
        ({ s with notify_response := s.notify_response ++ d,
                  notify_future := some (.resolvedOk (s.notify_response ++ d)) }, .normal)) ∧
    (c.is_valid_response (s.notify_response ++ d) = false →
      notification_handler s d =
        ({ s with notify_response := s.notify_response ++ d,
                  notify_future := some (.resolvedErr .parseError) }, .normal)) ∧
    (∀ s2 : ReaderState, ∀ f, s2.notify_future = some f → futureDone f = true →
      ∀ d2, notification_handler s2 d2 = (s2, .warned)) := by
  refine ⟨?_, ?_, ?_⟩
  · intro hv
    simp [notification_handler, hf, hc, futureDone, hd1, hd2, hlen, hv]
  · intro hv
    simp [notification_handler, hf, hc, futureDone, hd1, hd2, hlen, hv]
  · intro s2 f hs2 hdone d2
    simp [notification_handler, hs2, hdone]

/-- Claim C3 witness: the claim instantiated at a pending exchange for a
command of expected length 3 whose checksum accepts the bytes 1, 2, 3,
with the first fragment of two bytes already accumulated and the final
one-byte fragment arriving. -/
theorem claim_C3_witness :
    notification_handler c3state [3] =
      ({ c3state with notify_response := [1, 2, 3],
                      notify_future := some (.resolvedOk [1, 2, 3]) }, .normal) := by
  have h := claim_C3 c3state c3cmd [3] rfl rfl (by decide) (by decide) (by decide)
  exact h.1 (by decide)

/-- Claim C2: in the connect-retry loop of read_data with maxRetries at
least 2, a failure on attempt 1 is propagated immediately (the whole retry
sequence ends with the exception after a single connect call), a failure
on attempt maxRetries is propagated immediately by the loop step at that
attempt, a failure on any attempt strictly between 1 and maxRetries is
logged, followed by a 2 second backoff, and then retried at the next
attempt, and any successful attempt stops the loop at once. -/
theorem claim_C2 (maxR : Nat) (cres : Nat → Option PyExc) (e : PyExc) (h2 : 2 ≤ maxR) :
    (cres 1 = some e → connectRetry false cres maxR = ([.connectCall 1], some e)) ∧
    (∀ fuel : Nat, cres maxR = some e →
      connectLoop false cres maxR maxR (fuel + 1) = ([.connectCall maxR], some e)) ∧
    (∀ a fuel : Nat, 1 < a → a < maxR → cres a = some e →
      connectLoop false cres maxR a (fuel + 1) =
        (Ev.connectCall a :: Ev.logWarn :: Ev.backoff 2 ::
           (connectLoop false cres maxR (a + 1) fuel).1,
         (connectLoop false cres maxR (a + 1) fuel).2)) ∧
    (∀ a fuel : Nat, cres a = none →
      connectLoop false cres maxR a (fuel + 1) = ([.connectCall a], none)) := by
  refine ⟨?_, ?_, ?_, ?_⟩
  · intro h1
    obtain ⟨k, rfl⟩ : ∃ k, maxR = k + 1 := ⟨maxR - 1, by omega⟩
    unfold connectRetry
    conv_lhs => rw [connectLoop]
    simp [h1]
  · intro fuel h1
    conv_lhs => rw [connectLoop]
    simp [h1]
  · intro a fuel ha1 ha2 h1
    have hna : ¬(a = maxR ∨ a = 1) := by omega
    conv_lhs => rw [connectLoop]
    simp [h1, hna]
  · intro a fuel h1
    conv_lhs => rw [connectLoop]
    simp [h1]

/-- Claim C2 witness: with three allowed attempts and every connect call
raising BleakError, the retry sequence propagates the attempt 1 failure
immediately after one connect call. -/
theorem claim_C2_witness :
    connectRetry false c2cres 3 = ([.connectCall 1], some .bleakErr) :=
  (claim_C2 3 c2cres .bleakErr (by decide)).1 rfl

/-- Claim C9: a write_to_device cycle that encounters no timeout and no
transport errors performs, in order, lock acquisition, the connect call
(only when not already connected), the characteristic write, the fixed 5
second post-write settle sleep, the teardown disconnect (only when not in
persistent-connection mode), the lock release, and the coordinator refresh
request; and no write_to_device cycle, whatever its outcome, ever performs
the install-exchange-and-await step (the sendCmd event) or subscribes to
notifications. -/
theorem claim_C9 (we : WEnv)
    (hto : we.timeout_fires = false)
    (hcr : we.connect_raises = none)
    (hwr : we.write_raises = none) :
    (write_to_device we).tr =
      [Ev.acquireLock] ++ (if we.is_connected then [] else [Ev.connectCall 1]) ++
      [Ev.writeChar, Ev.settle 5] ++ (if we.persistent_conn then [] else [Ev.disconnect]) ++
      [Ev.releaseLock, Ev.refresh] ∧
    (write_to_device we).out = .okRes ∧
    (∀ we2 : WEnv, Ev.sendCmd ∉ (write_to_device we2).tr ∧
      Ev.startNotify ∉ (write_to_device we2).tr) := by
  refine ⟨?_, ?_, ?_⟩
  · cases hic : we.is_connected <;> cases hp : we.persistent_conn <;>
      simp [write_to_device, write_body, write_tail, hto, hcr, hwr, hic, hp]
  · cases hic : we.is_connected <;>
      simp [write_to_device, write_body, write_out, hto, hcr, hwr, hic]
  · intro we2
    rcases we2 with ⟨p, ic, cr, wr, tf⟩
    cases tf <;> cases ic <;> cases p <;> cases cr <;> cases wr <;>
      simp [write_to_device, write_body, write_tail]

/-- Claim C9 witness: the nominal write cycle at the fixture environment,
initially disconnected and not in persistent-connection mode. -/
theorem claim_C9_witness :
    (write_to_device we9).tr =
      [Ev.acquireLock, Ev.connectCall 1, Ev.writeChar, Ev.settle 5, Ev.disconnect,
       Ev.releaseLock, Ev.refresh] ∧
    (write_to_device we9).out = .okRes := by
  have h := claim_C9 we9 rfl rfl rfl
  exact ⟨h.1.trans (by decide), h.2.1⟩

/-- Claim C10: for every coordinator update delivered to a binary sensor
or button entity once the persistent-connection guard passes, the entity
is available exactly when the coordinator data is a dict holding a value
of boolean type at the response key; when available, the on state equals
that boolean; and a missing key, a None value, a non-boolean value or
non-dict data leaves the entity unavailable (the handler is total, it
never raises). -/
theorem claim_C10 (persistent connected : Bool) (data : PyData) (key : String)
    (st : EntityState) (hguard : (persistent && !connected) = false) :
    ((bs_handle_coordinator_update persistent connected data key st).available = true ↔
      (boolAt data key).isSome = true) ∧
    (∀ b, boolAt data key = some b →
      (bs_handle_coordinator_update persistent connected data key st).is_on = b) ∧
    (boolAt data key = none →
      (bs_handle_coordinator_update persistent connected data key st).available = false) ∧
    ((btn_handle_coordinator_update persistent connected data key st).available = true ↔
      (boolAt data key).isSome = true) ∧
    (∀ b, boolAt data key = some b →
      (btn_handle_coordinator_update persistent connected data key st).is_on = b) ∧
    (boolAt data key = none →
      (btn_handle_coordinator_update persistent connected data key st).available = false) := by
  cases data with
  | nonDict =>
    simp [bs_handle_coordinator_update, btn_handle_coordinator_update, boolAt, hguard]
  | dict m =>
    cases hg : dictGet m key with
    | none =>
      simp [bs_handle_coordinator_update, btn_handle_coordinator_update, boolAt, hguard, hg]
    | some v =>
      cases v <;>
        simp [bs_handle_coordinator_update, btn_handle_coordinator_update, boolAt, hguard, hg]

/-- Claim C10 witness: on a dict holding the boolean True at power_off,
both handlers mark the entity available with the on state True, and a
missing key makes the button entity unavailable. -/
theorem claim_C10_witness :
    (bs_handle_coordinator_update false true c10data "power_off" ⟨false, false⟩).available = true ∧
    (bs_handle_coordinator_update false true c10data "power_off" ⟨false, false⟩).is_on = true ∧
    (btn_handle_coordinator_update false true c10data "hidden" ⟨true, true⟩).available = false := by
  have h1 := claim_C10 false true c10data "power_off" ⟨false, false⟩ rfl
  have h2 := claim_C10 false true c10data "hidden" ⟨true, true⟩ rfl
  exact ⟨h1.1.mpr (by decide), h1.2.1 true (by decide), h2.2.2.2.2.2 (by decide)⟩

/-- Claim C6: in the pack polling loop, a successfully decoded pack command
contributes through packCmdMerge (loop-step equation); when the decoded
pack_num is absent, not an int (in the Python sense, where bool is an int),
or different from the requested pack, none of the command fields are
merged; otherwise every decoded field is assigned under its key with the
pack index appended; and such a suffixed key is never the bare key. -/
theorem claim_C6 (env : Env) (pack : Nat) (c : Command) (rest : List Command)
    (s : ReaderState) (i : Nat) (acc parsed : FieldMap)
    (_hpack : 1 ≤ pack)
    (hok : cmdOutcome (env.step i) = .ok parsed) :
    ((packCmdLoop env pack (c :: rest) s i acc).res =
      (packCmdLoop env pack rest (runCmd s c (env.step i)).1 (i + 1)
        (packCmdMerge acc parsed pack)).res) ∧
    ((dictGet parsed "pack_num" = none ∨
      ∃ v, dictGet parsed "pack_num" = some v ∧
        (isInstInt v = false ∨ valueEqNat v pack = false)) →
      packCmdMerge acc parsed pack = acc) ∧
    (∀ v, dictGet parsed "pack_num" = some v → isInstInt v = true → valueEqNat v pack = true →
      packCmdMerge acc parsed pack =
        dictUpdate acc (parsed.map (fun p => (p.1 ++ toString pack, p.2)))) ∧
    (∀ p0, p0 ∈ parsed → p0.1 ++ toString pack ≠ p0.1) := by
  refine ⟨packCmdLoop_cons_ok_res env pack c rest s i acc parsed hok, ?_, ?_, ?_⟩
  · rintro (h | ⟨v, hv, hbad⟩)
    · simp [packCmdMerge, h]
    · rcases hbad with hb | hb <;> simp [packCmdMerge, hv, hb]
  · intro v hv hint heq
    simp [packCmdMerge, hv, hint, heq]
  · intro p0 _
    exact key_append_pack_ne p0.1 pack

/-- Claim C6 witness: a pack command echoing pack_num 2 at requested pack 2
merges its fields under the suffixed keys voltage2 and pack_num2, a
response echoing pack_num 1 at requested pack 2 merges nothing, and the
pack command loop carries the merged map in its result. -/
theorem claim_C6_witness :
    packCmdMerge [] c6parsed 2 =
      [("voltage2", Value.pyint 12), ("pack_num2", Value.pyint 2)] ∧
    packCmdMerge [] c6mismatch 2 = [] ∧
    (packCmdLoop c6env 2 [c6cmd] c6state 0 []).res =
      .ok [("voltage2", Value.pyint 12), ("pack_num2", Value.pyint 2)] := by
  have h := claim_C6 c6env 2 c6cmd [] c6state 0 [] c6parsed (by decide) rfl
  have hM := claim_C6 c6envM 2 c6cmd [] c6state 0 [] c6mismatch (by decide) rfl
  refine ⟨?_, ?_, ?_⟩
  · exact (h.2.2.1 (Value.pyint 2) (by decide) (by decide) (by decide)).trans (by decide)
  · exact hM.2.1 (Or.inr ⟨Value.pyint 1, by decide, Or.inr (by decide)⟩)
  · exact h.1.trans rfl

theorem write_body_clean (e : WEnv) : cleanTr (write_body e).1 := by
  rcases e with ⟨p, ic, cr, wr, tf⟩
  cases tf <;> cases ic <;> cases cr <;> cases wr <;> simp [write_body, cleanTr]

/-- Claim C8: on every exit path of a poll (read_data) or write
(write_to_device) cycle, whatever the outcome, when not in
persistent-connection mode the teardown disconnect happens exactly once
and the notifier ends unsubscribed; in persistent-connection mode neither
a disconnect nor a notifier unsubscribe ever happens. -/
theorem claim_C8 (env : Env) (dev : BluettiDevice) (filter : Option (List Command))
    (s : ReaderState) (we : WEnv) :
    ((read_data env dev filter s).tr.count Ev.disconnect =
      if s.persistent_conn then 0 else 1) ∧
    (s.persistent_conn = true → (read_data env dev filter s).tr.count Ev.stopNotify = 0) ∧
    (s.persistent_conn = false → (read_data env dev filter s).st.has_notifier = false) ∧
    ((write_to_device we).tr.count Ev.disconnect = if we.persistent_conn then 0 else 1) := by
  refine ⟨?_, ?_, ?_, ?_⟩
  · have h1 := count_eq_zero_of_clean_disconnect _ (read_body_clean env dev filter s)
    have h2 := teardown_count_disconnect (read_body env dev filter s).st
    rw [read_body_pc] at h2
    cases hp : s.persistent_conn <;>
      simp [read_data, List.count_append, List.count_cons, h1, h2, hp]
  · intro hp
    have h1 := count_eq_zero_of_clean_stop _ (read_body_clean env dev filter s)
    have h2 := teardown_count_stop (read_body env dev filter s).st
      ((read_body_pc env dev filter s).trans hp)
    simp [read_data, List.count_append, List.count_cons, h1, h2]
  · intro hp
    exact teardown_notifier (read_body env dev filter s).st
      ((read_body_pc env dev filter s).trans hp)
  · have h1 := count_eq_zero_of_clean_disconnect _ (write_body_clean we)
    cases hp : we.persistent_conn <;> cases hb : (write_body we).2 <;>
      simp [write_to_device, write_tail, List.count_append, List.count_cons, h1, hp, hb]

/-- Claim C8 witness: a non-persistent poll disconnects exactly once, a
persistent poll never unsubscribes the notifier, and a persistent write
cycle never disconnects. -/
theorem claim_C8_witness :
    (read_data env8 dev8 none s8).tr.count Ev.disconnect = 1 ∧
    (read_data env8 dev8 none s8p).tr.count Ev.stopNotify = 0 ∧
    (write_to_device we8).tr.count Ev.disconnect = 0 := by
  have h1 := claim_C8 env8 dev8 none s8 we8
  have h2 := claim_C8 env8 dev8 none s8p we8
  refine ⟨?_, h2.2.1 rfl, ?_⟩
  · simpa [s8] using h1.1
  · simpa [we8] using h1.2.2.2

/-- Claim C7: a poll returns the absent signal (None) exactly when its body
ended in the overall TimeoutError or a transport-level BleakError, it
returns a field map exactly when the body completed, and a filtered poll
whose individual commands only succeed or fail with ParseError (no fatal
error, no overall timeout, connect loop succeeding) returns a (possibly
partial) field map rather than the absent signal. -/
theorem claim_C7 (env : Env) (dev : BluettiDevice) (filter : Option (List Command))
    (s : ReaderState) :
    ((read_data env dev filter s).out = .noneRes ↔
      ((read_body env dev filter s).res = .error .timeoutErr ∨
       (read_body env dev filter s).res = .error .bleakErr)) ∧
    (∀ m, (read_data env dev filter s).out = .map m ↔
      (read_body env dev filter s).res = .ok m) ∧
    (∀ cmds, filter = some cmds → env.timeout_fires = false →
      (connectRetry env.is_connected env.connect_result s.max_retries).2 = none →
      (∀ p, p < cmds.length →
        cmdOutcome (env.step p) = .error .parseError ∨
        ∃ l, cmdOutcome (env.step p) = .ok l ∧ (l.map Prod.fst).Nodup) →
      ∃ m, (read_data env dev filter s).out = .map m) := by
  have hout : (read_data env dev filter s).out = read_out (read_body env dev filter s).res := rfl
  refine ⟨?_, ?_, ?_⟩
  · rw [hout]
    cases hb : (read_body env dev filter s).res with
    | ok m => simp [read_out]
    | error e => cases e <;> simp [read_out]
  · intro m
    rw [hout]
    cases hb : (read_body env dev filter s).res with
    | ok m2 => simp [read_out]
    | error e => cases e <;> simp [read_out]
  · intro cmds hf hto hcr hall
    subst hf
    obtain ⟨m, hm, _⟩ := mainLoop_lookup env cmds (attachNotifier s) 0 [] (by
      intro p hp
      simpa using hall p hp)
    have hres : (read_body env dev (some cmds) s).res = .ok m := by
      simp [read_body, hto, hcr, pollingOf, packsOf, hm]
    exact ⟨m, by rw [hout, hres]; rfl⟩

/-- Claim C7 witness: a filtered poll of one command that succeeds and
decodes one field returns the field map with that field. -/
theorem claim_C7_witness :
    (read_data c7env c7dev (some [c7cmd]) c7state).out = .map [("soc", Value.pyint 55)] := by
  obtain ⟨m, hm⟩ := (claim_C7 c7env c7dev (some [c7cmd]) c7state).2.2 [c7cmd] rfl rfl rfl
    (fun p hp => Or.inr ⟨[("soc", Value.pyint 55)], rfl, by decide⟩)
  have hv : (read_data c7env c7dev (some [c7cmd]) c7state).out =
      .map [("soc", Value.pyint 55)] := by decide
  exact hv

/-- Claim C5: in a poll over N main-device commands where exactly one
command (position j) fails checksum validation with ParseError and all
others succeed, the poll is not aborted: the main loop completes with a
field map in which every field decoded by the other N - 1 commands
appears, while the keys the failing command would have contributed (taken
disjoint from the others) are absent. Key sets are assumed disjoint across
commands and duplicate-free within each command, as distinct register
ranges decode distinct fields. -/
theorem claim_C5 (env : Env) (cmds : List Command) (s : ReaderState) (j : Nat)
    (parsedOf : Nat → FieldMap) (failKeys : List String)
    (hj : j < cmds.length)
    (hfail : cmdOutcome (env.step j) = .error .parseError)
    (hok : ∀ p, p < cmds.length → p ≠ j → cmdOutcome (env.step p) = .ok (parsedOf p))
    (hnd : ∀ p, p < cmds.length → p ≠ j → ((parsedOf p).map Prod.fst).Nodup)
    (hdisj : ∀ p q, p < cmds.length → q < cmds.length → p ≠ j → q ≠ j → p ≠ q →
      ∀ k, k ∈ (parsedOf p).map Prod.fst → k ∉ (parsedOf q).map Prod.fst)
    (hfk : ∀ k, k ∈ failKeys → ∀ p, p < cmds.length → p ≠ j → k ∉ (parsedOf p).map Prod.fst) :
    ∃ m, (mainLoop env cmds s 0 []).res = .ok m ∧
      (∀ p, p < cmds.length → p ≠ j → ∀ k v, (k, v) ∈ parsedOf p → dictGet m k = some v) ∧
      (∀ k, k ∈ failKeys → dictGet m k = none) := by
  have hall : ∀ p, p < cmds.length →
      cmdOutcome (env.step (0 + p)) = .error .parseError ∨
      ∃ l, cmdOutcome (env.step (0 + p)) = .ok l ∧ (l.map Prod.fst).Nodup := by
    intro p hp
    rw [Nat.zero_add]
    by_cases hpj : p = j
    · subst hpj
      exact Or.inl hfail
    · exact Or.inr ⟨parsedOf p, hok p hp hpj, hnd p hp hpj⟩
  obtain ⟨m, hm, hlook⟩ := mainLoop_lookup env cmds s 0 [] hall
  refine ⟨m, hm, ?_, ?_⟩
  · intro p hp hpj k v hkv
    rw [hlook k]
    have hkmem : k ∈ (parsedOf p).map Prod.fst := List.mem_map.mpr ⟨(k, v), hkv, rfl⟩
    apply pollLookup_set env k v cmds.length 0 p (dictGet [] k) (Nat.zero_le p) (by omega)
    · exact ⟨parsedOf p, hok p hp hpj,
        dictGet_of_mem_nodup (parsedOf p) k v hkv (hnd p hp hpj)⟩
    · intro q hq0 hq hqp
      by_cases hqj : q = j
      · subst hqj
        exact Or.inl hfail
      · refine Or.inr ⟨parsedOf q, hok q (by omega) hqj, ?_⟩
        exact dictGet_eq_none_of_not_mem (parsedOf q) k
          (hdisj p q hp (by omega) hpj hqj (fun he => hqp he.symm) k hkmem)
  · intro k hk
    rw [hlook k]
    apply pollLookup_untouched env k cmds.length 0 (dictGet [] k)
    intro q hq0 hq
    by_cases hqj : q = j
    · subst hqj
      exact Or.inl hfail
    · exact Or.inr ⟨parsedOf q, hok q (by omega) hqj,
        dictGet_eq_none_of_not_mem (parsedOf q) k (hfk k hk q (by omega) hqj)⟩

/-- Claim C5 witness: a poll of two commands where the first fails its
checksum and the second decodes the field a yields the map holding a and
nothing for the failing command key b. -/
theorem claim_C5_witness :
    (mainLoop c5env [c5cmd, c5cmd] c5state 0 []).res = .ok [("a", Value.pyint 1)] ∧
    dictGet [("a", Value.pyint 1)] "a" = some (Value.pyint 1) ∧
    dictGet [("a", Value.pyint 1)] "b" = none := by
  have hl : ([c5cmd, c5cmd] : List Command).length = 2 := rfl
  obtain ⟨m, hm, hmem, hnone⟩ :=
    claim_C5 c5env [c5cmd, c5cmd] c5state 0 c5parsedOf ["b"]
      (by rw [hl]; omega)
      rfl
      (by
        intro p hp hpj
        rw [hl] at hp
        have h1 : p = 1 := by omega
        subst h1
        rfl)
      (by
        intro p hp hpj
        rw [hl] at hp
        have h1 : p = 1 := by omega
        subst h1
        decide)
      (by intro p q hp hq hpj hqj hpq; rw [hl] at hp hq; exfalso; omega)
      (by
        intro k hk p hp hpj
        rw [hl] at hp
        have h1 : p = 1 := by omega
        subst h1
        simp only [List.mem_singleton] at hk
        subst hk
        decide)
  have hr : (mainLoop c5env [c5cmd, c5cmd] c5state 0 []).res = .ok [("a", Value.pyint 1)] := rfl
  have hmeq : m = [("a", Value.pyint 1)] := Except.ok.inj (hm.symm.trans hr)
  exact ⟨hr, hmeq ▸ hmem 1 (by rw [hl]; omega) (by omega) "a" (Value.pyint 1) (by decide),
    hmeq ▸ hnone "b" (by decide)⟩
